import Mathlib

/-!
Verification of the refresh-token lifecycle of the `express-auth-template`
authentication service, as a shallow embedding of
`src/services/auth.service.ts`, `src/repositories/user.repository.ts`,
`src/repositories/refreshToken.repository.ts` and `src/utils/jwt.ts`.

Modelling choices:
* JSON web tokens are embedded structurally: a token is either a signed
  claims payload together with the secret, issuer and audience it was signed
  with, or an unparseable string.  `jsonwebtoken`'s `verify` checks the
  secret, issuer, audience and expiry; `decode` only parses.
* Wall-clock time is an explicit `now : Nat` in milliseconds, one instant
  per service call; JWT claims use seconds (`now / 1000`), exactly as
  `jsonwebtoken` computes `clockTimestamp = floor(Date.now() / 1000)` and
  rejects a token when `clockTimestamp >= exp`.
* `uuidv4()` (refresh `tokenId`) and `cuid()` (database ids) are modelled by
  a freshness counter `nextId` carried in the database state.
* The Prisma store is a pair of lists.  Prisma's `update` and `delete` on a
  missing unique record throw (error code P2025), and `create` on a unique
  violation throws (P2002); the model returns these as `Err.db` values,
  which the service propagates uncaught except in `logout`.
* `bcrypt` is modelled by an injective tagged digest; timestamps
  (`createdAt` / `updatedAt`) are not modelled, no claim mentions them.
-/

namespace AuthSpec

/-- Error kinds of `src/utils/errors.ts` (`ConflictError`, `UnauthorizedError`,
`NotFoundError`) plus `Err.db` for raw database-layer errors (Prisma
exceptions such as P2025/P2002) that the service does not catch. -/
inductive Err where
  | conflict (msg : String)
  | unauthorized (msg : String)
  | notFound (msg : String)
  | db (msg : String)
deriving DecidableEq, Repr

/-! Configuration values from `src/config/index.ts` / `.env`. -/

namespace Config

def jwtAccessSecret : String := "your-super-secret-jwt-access-key-production"

def jwtRefreshSecret : String := "your-super-secret-jwt-refresh-key-production"

/-- JWT_ACCESS_EXPIRES_IN = 15m, in seconds. -/
def jwtAccessExpiresIn : Nat := 15 * 60

/-- JWT_REFRESH_EXPIRES_IN = 7d, in seconds. -/
def jwtRefreshExpiresIn : Nat := 7 * 24 * 60 * 60

def bcryptRounds : Nat := 12

end Config

namespace Jwt

/-- Claims payload of `src/utils/jwt.ts` (`TokenPayload`).  `tokenId` is the
per-issuance uuid of refresh tokens, modelled as a natural drawn from the
freshness counter.  `iat` and `exp` are in seconds. -/
structure TokenPayload where
  userId : String
  email : String
  username : Option String := none
  tokenId : Option Nat := none
  iat : Nat := 0
  exp : Nat := 0
deriving DecidableEq, Repr

/-- A JSON web token: either a payload signed with a given secret, issuer and
audience, or an unparseable string. -/
inductive Token where
  | signed (payload : TokenPayload) (secret : String) (issuer : String) (audience : String)
  | malformed (raw : String)
deriving DecidableEq, Repr

/-- The `tokenId` claim carried by a token, if any. -/
def Token.tokenIdOf : Token → Option Nat
  | .signed p _ _ _ => p.tokenId
  | .malformed _ => none

def issuer : String := "express-auth-server"

def audience : String := "express-auth-client"

/-- Model of `jwt.sign(claims, secret, { expiresIn, issuer, audience })`:
stamps `iat = floor(now/1000)` and `exp = iat + expiresIn`. -/
def sign (claims : TokenPayload) (secret : String) (expiresInSec : Nat) (now : Nat) : Token :=
  .signed { claims with iat := now / 1000, exp := now / 1000 + expiresInSec } secret issuer audience

/-- Model of `jwt.verify(token, secret, { issuer, audience })`: the token must
be parseable, signed with the given secret, carry the expected issuer and
audience, and be unexpired (`floor(now/1000) < exp`). -/
def verify (t : Token) (secret : String) (now : Nat) : Option TokenPayload :=
  match t with
  | .malformed _ => none
  | .signed p s iss aud =>
    if s = secret ∧ iss = issuer ∧ aud = audience ∧ now / 1000 < p.exp then some p else none

/-- The `decodeToken` of `src/utils/jwt.ts`: `jwt.decode` parses the claims
without verifying signature or expiry; `null` on unparseable input. -/
def decodeToken : Token → Option TokenPayload
  | .signed p _ _ _ => some p
  | .malformed _ => none

/-- The `generateAccessToken`: signs only `{userId, email, username}` with the
access secret. -/
def generateAccessToken (payload : TokenPayload) (now : Nat) : Token :=
  sign { userId := payload.userId, email := payload.email, username := payload.username }
    Config.jwtAccessSecret Config.jwtAccessExpiresIn now

/-- The `generateRefreshToken`: signs `{...payload, tokenId: uuidv4()}` with the
refresh secret; the fresh uuid is passed in as `tid`. -/
def generateRefreshToken (payload : TokenPayload) (tid : Nat) (now : Nat) : Token :=
  sign { payload with tokenId := some tid } Config.jwtRefreshSecret Config.jwtRefreshExpiresIn now

/-- The `TokenPair` of `src/utils/jwt.ts`. -/
structure TokenPair where
  accessToken : Token
  refreshToken : Token
deriving DecidableEq, Repr

/-- The `generateTokenPair`. -/
def generateTokenPair (payload : TokenPayload) (tid : Nat) (now : Nat) : TokenPair :=
  { accessToken := generateAccessToken payload now
    refreshToken := generateRefreshToken payload tid now }

/-- The `verifyAccessToken`: wraps any verification failure into
`UnauthorizedError("Invalid access token")`. -/
def verifyAccessToken (t : Token) (now : Nat) : Except Err TokenPayload :=
  match verify t Config.jwtAccessSecret now with
  | some p => .ok p
  | none => .error (.unauthorized "Invalid access token")

/-- The `verifyRefreshToken`: wraps any verification failure into
`UnauthorizedError("Invalid refresh token")`. -/
def verifyRefreshToken (t : Token) (now : Nat) : Except Err TokenPayload :=
  match verify t Config.jwtRefreshSecret now with
  | some p => .ok p
  | none => .error (.unauthorized "Invalid refresh token")

end Jwt

/-! Model of `bcrypt`: `hash` is an injective tagged digest, `compare`
re-derives it.  Only injectivity and the hash/compare round trip matter to
the service logic. -/

namespace Bcrypt

def hash (plaintext : String) (rounds : Nat) : String :=
  "$2b$" ++ toString rounds ++ "$" ++ plaintext

def compare (plaintext digest : String) : Bool :=
  digest == hash plaintext Config.bcryptRounds

end Bcrypt

/-- The `User` row of `prisma/schema.prisma` (timestamps omitted). -/
structure User where
  id : String
  email : String
  username : Option String
  name : Option String
  phone : Option String
  password : String
  isActive : Bool
deriving DecidableEq, Repr

/-- The `RefreshToken` row of `prisma/schema.prisma` (`id` / `createdAt`
omitted; rows are looked up by the unique `token` column only). -/
structure RefreshTokenRecord where
  token : Jwt.Token
  userId : String
  expiresAt : Nat
  isRevoked : Bool
deriving DecidableEq, Repr

/-- The persistent state: the two Prisma tables plus the freshness counter
standing in for uuid/cuid generation. -/
structure Db where
  users : List User
  refreshTokens : List RefreshTokenRecord
  nextId : Nat
deriving DecidableEq, Repr

def Db.empty : Db := ⟨[], [], 0⟩

/-- The `CreateUserData` of `src/repositories/user.repository.ts`. -/
structure CreateUserData where
  email : String
  password : String
  username : Option String := none
  name : Option String := none
  phone : Option String := none
deriving Repr

/-- The `UpdateUserData` of `src/repositories/user.repository.ts`. -/
structure UpdateUserData where
  username : Option String := none
  name : Option String := none
  phone : Option String := none
deriving Repr

namespace UserRepository

def findById (id : String) (db : Db) : Option User :=
  db.users.find? fun u => decide (u.id = id)

def findByEmail (email : String) (db : Db) : Option User :=
  db.users.find? fun u => decide (u.email = email)

def emailExists (email : String) (db : Db) : Bool :=
  (findByEmail email db).isSome

def usernameExists (username : String) (db : Db) : Bool :=
  (db.users.find? fun u => decide (u.username = some username)).isSome

/-- The `prisma.user.create`: inserts a fresh row; a unique-constraint violation
on `email` or `username` surfaces as a thrown P2002 error. -/
def create (d : CreateUserData) (db : Db) : Except Err (User × Db) :=
  if emailExists d.email db || d.username.elim false (fun un => usernameExists un db) then
    .error (.db "P2002: unique constraint violation")
  else
    let user : User :=
      { id := "u" ++ toString db.nextId, email := d.email, username := d.username
        name := d.name, phone := d.phone, password := d.password, isActive := true }
    .ok (user, { db with users := user :: db.users, nextId := db.nextId + 1 })

/-- The `prisma.user.update` by id: applies only the fields present in the
partial update; throws P2025 when the row is absent. -/
def updateById (id : String) (d : UpdateUserData) (db : Db) : Except Err (User × Db) :=
  match findById id db with
  | none => .error (.db "P2025: record not found")
  | some u =>
    let u' : User :=
      { u with username := d.username.elim u.username some
               name := d.name.elim u.name some
               phone := d.phone.elim u.phone some }
    .ok (u', { db with users := db.users.map fun v => if decide (v.id = id) then u' else v })

end UserRepository

/-- The `CreateRefreshTokenData` of `src/repositories/refreshToken.repository.ts`. -/
structure CreateRefreshTokenData where
  token : Jwt.Token
  userId : String
  expiresAt : Nat
deriving Repr

namespace RefreshTokenRepository

def findByToken (t : Jwt.Token) (db : Db) : Option RefreshTokenRecord :=
  db.refreshTokens.find? fun r => decide (r.token = t)

/-- The `prisma.refreshToken.create`: inserts `{token, userId, expiresAt}` with
`isRevoked` defaulting to `false`; the unique constraint on `token` surfaces
as a thrown P2002 error. -/
def create (d : CreateRefreshTokenData) (db : Db) : Except Err Db :=
  if db.refreshTokens.any fun r => decide (r.token = d.token) then
    .error (.db "P2002: unique constraint violation")
  else
    .ok { db with refreshTokens := ⟨d.token, d.userId, d.expiresAt, false⟩ :: db.refreshTokens }

/-- The `revokeToken` = `prisma.refreshToken.update({where: {token}, data:
{isRevoked: true}})`: throws P2025 when no row has this token. -/
def revokeToken (t : Jwt.Token) (db : Db) : Except Err Db :=
  if db.refreshTokens.any fun r => decide (r.token = t) then
    .ok { db with refreshTokens :=
            db.refreshTokens.map fun r => if decide (r.token = t) then { r with isRevoked := true } else r }
  else .error (.db "P2025: record not found")

/-- The `deleteToken` = `prisma.refreshToken.delete({where: {token}})`: throws
P2025 when no row has this token. -/
def deleteToken (t : Jwt.Token) (db : Db) : Except Err Db :=
  if db.refreshTokens.any fun r => decide (r.token = t) then
    .ok { db with refreshTokens := db.refreshTokens.filter fun r => !(decide (r.token = t)) }
  else .error (.db "P2025: record not found")

end RefreshTokenRepository

namespace AuthService

/-- The `SignupRequest` of `src/services/auth.service.ts`. -/
structure SignupRequest where
  email : String
  password : String
  username : Option String := none
  name : Option String := none
  phone : Option String := none
deriving Repr

/-- The `LoginRequest` of `src/services/auth.service.ts`. -/
structure LoginRequest where
  email : String
  password : String
deriving Repr

/-- The `UserProfile` of `src/services/auth.service.ts` (timestamps omitted);
note it carries no password digest. -/
structure UserProfile where
  id : String
  email : String
  username : Option String
  name : Option String
  phone : Option String
  isActive : Bool
deriving DecidableEq, Repr

/-- The `mapUserToProfile`. -/
def mapUserToProfile (u : User) : UserProfile :=
  { id := u.id, email := u.email, username := u.username, name := u.name
    phone := u.phone, isActive := u.isActive }

/-- The `storeRefreshToken`: extracts the embedded expiry of the freshly minted
refresh token via `verifyRefreshToken` and persists
`{token, userId, expiresAt = exp * 1000}`. -/
def storeRefreshToken (token : Jwt.Token) (userId : String) (now : Nat) (db : Db) : Except Err Db :=
  match Jwt.verifyRefreshToken token now with
  | .error e => .error e
  | .ok payload => RefreshTokenRepository.create ⟨token, userId, payload.exp * 1000⟩ db

/-- Modelled from the spec: the spec's step "decode its embedded expiry (via
`decodeUnsafe` ...) and store `{token, userId, expiresAt}`" (§4.5 signup
step 6, §4.2), which uses the non-verifying decode; stated here only to be
compared with the source's `storeRefreshToken` above. -/
def storeRefreshTokenSpecVariant (token : Jwt.Token) (userId : String) (db : Db) : Except Err Db :=
  match Jwt.decodeToken token with
  | none => .error (.unauthorized "Invalid refresh token")
  | some payload => RefreshTokenRepository.create ⟨token, userId, payload.exp * 1000⟩ db

/-- The `AuthService.signup`: conflict checks, hash, create user, mint and
persist a token pair. -/
def signup (d : SignupRequest) (now : Nat) (db : Db) :
    Except Err (UserProfile × Jwt.TokenPair) × Db :=
  if UserRepository.emailExists d.email db then
    (.error (.conflict "Email address is already registered"), db)
  else if d.username.elim false (fun un => UserRepository.usernameExists un db) then
    (.error (.conflict "Username is already taken"), db)
  else
    let hashed := Bcrypt.hash d.password Config.bcryptRounds
    match UserRepository.create ⟨d.email, hashed, d.username, d.name, d.phone⟩ db with
    | .error e => (.error e, db)
    | .ok (user, db₁) =>
      let tid := db₁.nextId
      let db₂ := { db₁ with nextId := db₁.nextId + 1 }
      let tokens := Jwt.generateTokenPair
        { userId := user.id, email := user.email, username := user.username } tid now
      match storeRefreshToken tokens.refreshToken user.id now db₂ with
      | .error e => (.error e, db₂)
      | .ok db₃ => (.ok (mapUserToProfile user, tokens), db₃)

/-- The `AuthService.login`: lookup by email, active check, password check, mint
and persist a token pair. -/
def login (d : LoginRequest) (now : Nat) (db : Db) :
    Except Err (UserProfile × Jwt.TokenPair) × Db :=
  match UserRepository.findByEmail d.email db with
  | none => (.error (.unauthorized "Invalid email or password"), db)
  | some user =>
    if !user.isActive then
      (.error (.unauthorized "Account is deactivated"), db)
    else if !(Bcrypt.compare d.password user.password) then
      (.error (.unauthorized "Invalid email or password"), db)
    else
      let tid := db.nextId
      let db₁ := { db with nextId := db.nextId + 1 }
      let tokens := Jwt.generateTokenPair
        { userId := user.id, email := user.email, username := user.username } tid now
      match storeRefreshToken tokens.refreshToken user.id now db₁ with
      | .error e => (.error e, db₁)
      | .ok db₂ => (.ok (mapUserToProfile user, tokens), db₂)

/-- The `AuthService.logout`: best-effort delete of the presented token's record;
any store error is swallowed ("Token might not exist, which is fine for
logout"). -/
def logout (t : Jwt.Token) (db : Db) : Except Err Unit × Db :=
  match RefreshTokenRepository.deleteToken t db with
  | .ok db₁ => (.ok (), db₁)
  | .error _ => (.ok (), db)

/-- The `AuthService.refreshToken`: the rotation protocol.  Verify, look up the
stored record, reject revoked/absent, delete-and-reject stored-expired,
re-fetch the user, then revoke the old record and persist the new token. -/
def refreshToken (t : Jwt.Token) (now : Nat) (db : Db) : Except Err Jwt.TokenPair × Db :=
  match Jwt.verifyRefreshToken t now with
  | .error e => (.error e, db)
  | .ok payload =>
    match RefreshTokenRepository.findByToken t db with
    | none => (.error (.unauthorized "Invalid refresh token"), db)
    | some stored =>
      if stored.isRevoked then
        (.error (.unauthorized "Invalid refresh token"), db)
      else if stored.expiresAt < now then
        match RefreshTokenRepository.deleteToken t db with
        | .ok db₁ => (.error (.unauthorized "Refresh token has expired"), db₁)
        | .error e => (.error e, db)
      else
        match UserRepository.findById payload.userId db with
        | none => (.error (.unauthorized "User not found or inactive"), db)
        | some user =>
          if !user.isActive then
            (.error (.unauthorized "User not found or inactive"), db)
          else
            let tid := db.nextId
            let db₁ := { db with nextId := db.nextId + 1 }
            let newTokens := Jwt.generateTokenPair
              { userId := user.id, email := user.email, username := user.username } tid now
            match RefreshTokenRepository.revokeToken t db₁ with
            | .error e => (.error e, db₁)
            | .ok db₂ =>
              match storeRefreshToken newTokens.refreshToken user.id now db₂ with
              | .error e => (.error e, db₂)
              | .ok db₃ => (.ok newTokens, db₃)

/-- The `AuthService.getProfile`. -/
def getProfile (userId : String) (db : Db) : Except Err UserProfile :=
  match UserRepository.findById userId db with
  | none => .error (.notFound "User not found")
  | some user => .ok (mapUserToProfile user)

/-- The `AuthService.updateProfile`. -/
def updateProfile (userId : String) (d : UpdateUserData) (db : Db) :
    Except Err UserProfile × Db :=
  match UserRepository.findById userId db with
  | none => (.error (.notFound "User not found"), db)
  | some existingUser =>
    if d.username.elim false (fun un => decide (¬ existingUser.username = some un) &&
        UserRepository.usernameExists un db) then
      (.error (.conflict "Username is already taken"), db)
    else
      match UserRepository.updateById userId d db with
      | .error e => (.error e, db)
      | .ok (u', db₁) => (.ok (mapUserToProfile u'), db₁)

end AuthService

/-! ### Operation traces

`Op` is one inbound unit of work (spec §5), each carrying the wall-clock
instant at which it runs.  `deactivate` is modelled from the spec: the
administrative deactivation path (spec §3, "performed by an
external/administrative path not specified here") sets `isActive := false`;
it is included so that trace theorems quantify over it as well. -/

inductive Op where
  | signup (d : AuthService.SignupRequest) (now : Nat)
  | login (d : AuthService.LoginRequest) (now : Nat)
  | logout (t : Jwt.Token)
  | refresh (t : Jwt.Token) (now : Nat)
  | getProfile (uid : String)
  | updateProfile (uid : String) (d : UpdateUserData)
  | deactivate (uid : String)

/-- The state reached by one operation (results discarded). -/
def applyOp (db : Db) (op : Op) : Db :=
  match op with
  | .signup d now => (AuthService.signup d now db).2
  | .login d now => (AuthService.login d now db).2
  | .logout t => (AuthService.logout t db).2
  | .refresh t now => (AuthService.refreshToken t now db).2
  | .getProfile _ => db
  | .updateProfile uid d => (AuthService.updateProfile uid d db).2
  | .deactivate uid =>
    { db with users := db.users.map fun u => if decide (u.id = uid) then { u with isActive := false } else u }

/-- The state reached by a sequence of operations. -/
def run (db : Db) (ops : List Op) : Db := ops.foldl applyOp db

/-- A token is consumed in a state when every record bearing it is revoked
(vacuously, when no record bears it). -/
def Consumed (db : Db) (t : Jwt.Token) : Prop :=
  ∀ r ∈ db.refreshTokens, r.token = t → r.isRevoked = true

/-- The token carries a `tokenId` claim below the freshness bound. -/
def TokenIdLt (t : Jwt.Token) (n : Nat) : Prop :=
  ∃ i, t.tokenIdOf = some i ∧ i < n

/-- Reachability invariant: every stored token's `tokenId` is below the
freshness counter (uuids are never reused). -/
def TokenBound (db : Db) : Prop :=
  ∀ r ∈ db.refreshTokens, TokenIdLt r.token db.nextId

/-- How one state may evolve into another under the service's operations:
the freshness counter never decreases, and every record afterwards either
descends from a record before (same token, revocation never undone) or
bears a token freshly minted in between. -/
def Evolves (db db' : Db) : Prop :=
  db.nextId ≤ db'.nextId ∧
  ∀ r' ∈ db'.refreshTokens,
    (∃ r ∈ db.refreshTokens, r'.token = r.token ∧ (r.isRevoked = true → r'.isRevoked = true)) ∨
    (∃ j, r'.token.tokenIdOf = some j ∧ db.nextId ≤ j ∧ j < db'.nextId)

/-! ### Concrete sample data used by witnesses and counterexamples -/

/-- The payload embedded in `sampleToken`. -/
def samplePayload : Jwt.TokenPayload := ⟨"u0", "a@x.com", none, some 0, 0, 604800⟩

/-- A refresh token minted by the service at time 0 for user `u0`. -/
def sampleToken : Jwt.Token := Jwt.generateRefreshToken ⟨"u0", "a@x.com", none, none, 0, 0⟩ 0 0

def sampleUser : User := ⟨"u0", "a@x.com", none, none, none, Bcrypt.hash "pw" 12, true⟩

/-- State after issuing `sampleToken` to the active user `u0`. -/
def sampleDb : Db := ⟨[sampleUser], [⟨sampleToken, "u0", 604800000, false⟩], 1⟩

/-- Like `sampleDb` but with the record already revoked. -/
def revokedDb : Db := ⟨[sampleUser], [⟨sampleToken, "u0", 604800000, true⟩], 1⟩

/-- Like `sampleDb` but the user has been deactivated. -/
def inactiveDb : Db :=
  ⟨[⟨"u0", "a@x.com", none, none, none, Bcrypt.hash "pw" 12, false⟩],
    [⟨sampleToken, "u0", 604800000, false⟩], 1⟩

/-- A refresh token whose embedded expiry (5 s) lies in the past at
`now = 10000` ms. -/
def expiredPayload : Jwt.TokenPayload := ⟨"u0", "a@x.com", none, some 0, 0, 5⟩

def expiredToken : Jwt.Token :=
  .signed expiredPayload Config.jwtRefreshSecret Jwt.issuer Jwt.audience

/-- State holding the expired token's (service-shaped) record. -/
def expiredDb : Db := ⟨[sampleUser], [⟨expiredToken, "u0", 5000, false⟩], 1⟩

/-- A token signed with the access secret: decodable, but not verifiable as a
refresh token. -/
def wrongSecretToken : Jwt.Token :=
  .signed samplePayload Config.jwtAccessSecret Jwt.issuer Jwt.audience

/-! ### Bridging lemmas for the executable store operations -/

theorem findByToken_eq_none {t : Jwt.Token} {db : Db}
    (h : RefreshTokenRepository.findByToken t db = none) :
    ∀ r ∈ db.refreshTokens, ¬ r.token = t := by
  intro r hr
  have := List.find?_eq_none.mp h r hr
  simpa using this

theorem findByToken_eq_some {t : Jwt.Token} {db : Db} {r : RefreshTokenRecord}
    (h : RefreshTokenRepository.findByToken t db = some r) :
    r ∈ db.refreshTokens ∧ r.token = t := by
  refine ⟨List.mem_of_find?_eq_some h, ?_⟩
  have := List.find?_some h
  simpa using this

theorem anyToken_iff {t : Jwt.Token} {l : List RefreshTokenRecord} :
    (l.any fun r => decide (r.token = t)) = true ↔ ∃ r ∈ l, r.token = t := by
  simp [List.any_eq_true]

theorem RefreshTokenRepository.create_ok {d : CreateRefreshTokenData} {db db' : Db}
    (h : RefreshTokenRepository.create d db = .ok db') :
    db'.users = db.users ∧ db'.nextId = db.nextId ∧
      db'.refreshTokens = ⟨d.token, d.userId, d.expiresAt, false⟩ :: db.refreshTokens ∧
      ∀ r ∈ db.refreshTokens, ¬ r.token = d.token := by
  unfold RefreshTokenRepository.create at h
  split at h
  · cases h
  · next hdup =>
    obtain rfl : _ = db' := by injection h
    refine ⟨rfl, rfl, rfl, ?_⟩
    intro r hr heq
    exact hdup (anyToken_iff.mpr ⟨r, hr, heq⟩)

theorem RefreshTokenRepository.revokeToken_ok {t : Jwt.Token} {db db' : Db}
    (h : RefreshTokenRepository.revokeToken t db = .ok db') :
    db'.users = db.users ∧ db'.nextId = db.nextId ∧
      db'.refreshTokens = db.refreshTokens.map
        (fun r => if decide (r.token = t) then { r with isRevoked := true } else r) := by
  unfold RefreshTokenRepository.revokeToken at h
  split at h
  · obtain rfl : _ = db' := by injection h
    exact ⟨rfl, rfl, rfl⟩
  · cases h

theorem RefreshTokenRepository.deleteToken_ok {t : Jwt.Token} {db db' : Db}
    (h : RefreshTokenRepository.deleteToken t db = .ok db') :
    db'.users = db.users ∧ db'.nextId = db.nextId ∧
      db'.refreshTokens = db.refreshTokens.filter fun r => !(decide (r.token = t)) := by
  unfold RefreshTokenRepository.deleteToken at h
  split at h
  · obtain rfl : _ = db' := by injection h
    exact ⟨rfl, rfl, rfl⟩
  · cases h

theorem UserRepository.createUser_ok {d : CreateUserData} {db db' : Db} {u : User}
    (h : UserRepository.create d db = .ok (u, db')) :
    db'.refreshTokens = db.refreshTokens ∧ db'.nextId = db.nextId + 1 := by
  unfold UserRepository.create at h
  split at h
  · cases h
  · obtain ⟨-, rfl⟩ : _ ∧ _ = db' := by
      have := h
      injection this with this
      exact ⟨congrArg Prod.fst this, congrArg Prod.snd this⟩
    exact ⟨rfl, rfl⟩

theorem UserRepository.updateById_ok {id : String} {d : UpdateUserData} {db db' : Db} {u : User}
    (h : UserRepository.updateById id d db = .ok (u, db')) :
    db'.refreshTokens = db.refreshTokens ∧ db'.nextId = db.nextId := by
  unfold UserRepository.updateById at h
  split at h
  · cases h
  · obtain ⟨-, rfl⟩ : _ ∧ _ = db' := by
      have := h
      injection this with this
      exact ⟨congrArg Prod.fst this, congrArg Prod.snd this⟩
    exact ⟨rfl, rfl⟩

theorem AuthService.storeRefreshToken_ok {tok : Jwt.Token} {uid : String} {now : Nat} {db db' : Db}
    (h : AuthService.storeRefreshToken tok uid now db = .ok db') :
    ∃ p, Jwt.verifyRefreshToken tok now = .ok p ∧
      db'.users = db.users ∧ db'.nextId = db.nextId ∧
      db'.refreshTokens = ⟨tok, uid, p.exp * 1000, false⟩ :: db.refreshTokens ∧
      ∀ r ∈ db.refreshTokens, ¬ r.token = tok := by
  unfold AuthService.storeRefreshToken at h
  split at h
  · cases h
  · next p hp =>
    obtain ⟨h₁, h₂, h₃, h₄⟩ := RefreshTokenRepository.create_ok h
    exact ⟨p, hp, h₁, h₂, h₃, h₄⟩

/-! ### The `Evolves` relation -/

theorem evolves_refl (db : Db) : Evolves db db := by
  refine ⟨le_refl _, fun r' hr' => .inl ⟨r', hr', rfl, id⟩⟩

theorem evolves_trans {a b c : Db} (hab : Evolves a b) (hbc : Evolves b c) : Evolves a c := by
  refine ⟨le_trans hab.1 hbc.1, fun r'' hr'' => ?_⟩
  rcases hbc.2 r'' hr'' with ⟨r', hr', htok, hmono⟩ | ⟨j, hj, hjb, hjc⟩
  · rcases hab.2 r' hr' with ⟨r, hr, htok', hmono'⟩ | ⟨j, hj, hja, hjb⟩
    · exact .inl ⟨r, hr, htok.trans htok', fun h => hmono (hmono' h)⟩
    · exact .inr ⟨j, htok ▸ hj, hja, lt_of_lt_of_le hjb hbc.1⟩
  · exact .inr ⟨j, hj, le_trans hab.1 hjb, hjc⟩

theorem evolves_same_tokens {db db' : Db}
    (htok : db'.refreshTokens = db.refreshTokens) (hn : db.nextId ≤ db'.nextId) :
    Evolves db db' := by
  refine ⟨hn, fun r' hr' => .inl ⟨r', htok ▸ hr', rfl, id⟩⟩

theorem evolves_filter {db db' : Db} {p : RefreshTokenRecord → Bool}
    (htok : db'.refreshTokens = db.refreshTokens.filter p) (hn : db.nextId ≤ db'.nextId) :
    Evolves db db' := by
  refine ⟨hn, fun r' hr' => ?_⟩
  rw [htok] at hr'
  exact .inl ⟨r', (List.mem_filter.mp hr').1, rfl, id⟩

theorem evolves_revoke_map {db db' : Db} {t : Jwt.Token}
    (htok : db'.refreshTokens = db.refreshTokens.map
      (fun r => if decide (r.token = t) then { r with isRevoked := true } else r))
    (hn : db.nextId ≤ db'.nextId) :
    Evolves db db' := by
  refine ⟨hn, fun r' hr' => ?_⟩
  rw [htok] at hr'
  obtain ⟨r, hr, rfl⟩ := List.mem_map.mp hr'
  by_cases hc : r.token = t
  · exact .inl ⟨r, hr, by simp [hc], by simp [hc]⟩
  · exact .inl ⟨r, hr, by simp [hc], by simp [hc]⟩

theorem evolves_cons_fresh {db db' : Db} {c : RefreshTokenRecord} {j : Nat}
    (htok : db'.refreshTokens = c :: db.refreshTokens)
    (hid : c.token.tokenIdOf = some j)
    (hlo : db.nextId ≤ j) (hhi : j < db'.nextId) :
    Evolves db db' := by
  refine ⟨le_of_lt (lt_of_le_of_lt hlo hhi), fun r' hr' => ?_⟩
  rw [htok] at hr'
  rcases List.mem_cons.mp hr' with rfl | hmem
  · exact .inr ⟨j, hid, hlo, hhi⟩
  · exact .inl ⟨r', hmem, rfl, id⟩

theorem tokenIdOf_generateRefreshToken (p : Jwt.TokenPayload) (tid now : Nat) :
    (Jwt.generateRefreshToken p tid now).tokenIdOf = some tid := rfl

theorem signup_evolves (d : AuthService.SignupRequest) (now : Nat) (db : Db) :
    Evolves db (AuthService.signup d now db).2 := by
  unfold AuthService.signup
  split
  · exact evolves_refl db
  split
  · exact evolves_refl db
  dsimp only
  split
  · exact evolves_refl db
  next user db₁ hcreate =>
  obtain ⟨hrt, hn⟩ := UserRepository.createUser_ok hcreate
  split
  · exact evolves_same_tokens (by simpa using hrt) (by simp; omega)
  next db₃ hs =>
  obtain ⟨p, hp, hu, hn₃, htoks, hfresh⟩ := AuthService.storeRefreshToken_ok hs
  refine evolves_cons_fresh (j := db₁.nextId)
    (c := ⟨Jwt.generateRefreshToken
      { userId := user.id, email := user.email, username := user.username } db₁.nextId now,
      user.id, p.exp * 1000, false⟩) ?_ rfl ?_ ?_
  · simpa [hrt, Jwt.generateTokenPair] using htoks
  · omega
  · show db₁.nextId < db₃.nextId
    simp at hn₃
    omega

theorem login_evolves (d : AuthService.LoginRequest) (now : Nat) (db : Db) :
    Evolves db (AuthService.login d now db).2 := by
  unfold AuthService.login
  split
  · exact evolves_refl db
  next user hfind =>
  split
  · exact evolves_refl db
  split
  · exact evolves_refl db
  dsimp only
  split
  · exact evolves_same_tokens rfl (Nat.le_succ _)
  next db₂ hs =>
  obtain ⟨p, hp, hu, hn₂, htoks, hfresh⟩ := AuthService.storeRefreshToken_ok hs
  refine evolves_cons_fresh (j := db.nextId)
    (c := ⟨Jwt.generateRefreshToken
      { userId := user.id, email := user.email, username := user.username } db.nextId now,
      user.id, p.exp * 1000, false⟩) ?_ rfl (le_refl _) ?_
  · simpa [Jwt.generateTokenPair] using htoks
  · show db.nextId < db₂.nextId
    simp at hn₂
    omega

theorem logout_evolves (t : Jwt.Token) (db : Db) :
    Evolves db (AuthService.logout t db).2 := by
  unfold AuthService.logout
  split
  · next db₁ hdel =>
    obtain ⟨hu, hn, htoks⟩ := RefreshTokenRepository.deleteToken_ok hdel
    refine evolves_filter htoks ?_
    show db.nextId ≤ db₁.nextId
    omega
  · exact evolves_refl db

theorem refresh_evolves (t : Jwt.Token) (now : Nat) (db : Db) :
    Evolves db (AuthService.refreshToken t now db).2 := by
  unfold AuthService.refreshToken
  split
  · exact evolves_refl db
  split
  · exact evolves_refl db
  next stored hfind =>
  split
  · exact evolves_refl db
  split
  · split
    · next db₁ hdel =>
      obtain ⟨hu, hn, htoks⟩ := RefreshTokenRepository.deleteToken_ok hdel
      refine evolves_filter htoks ?_
      show db.nextId ≤ db₁.nextId
      omega
    · exact evolves_refl db
  split
  · exact evolves_refl db
  next user huser =>
  split
  · exact evolves_refl db
  dsimp only
  split
  · exact evolves_same_tokens rfl (Nat.le_succ _)
  next db₂ hrev =>
  obtain ⟨hu₂, hn₂, htoks₂⟩ := RefreshTokenRepository.revokeToken_ok hrev
  split
  · refine evolves_revoke_map (t := t) ?_ ?_
    · simpa using htoks₂
    · show db.nextId ≤ db₂.nextId
      simp at hn₂
      omega
  next db₃ hs =>
  obtain ⟨p, hp, hu₃, hn₃, htoks₃, hfresh⟩ := AuthService.storeRefreshToken_ok hs
  refine evolves_trans (b := { db with refreshTokens := db.refreshTokens.map fun r => if decide (r.token = t) then { r with isRevoked := true } else r }) ?_ ?_
  · exact evolves_revoke_map rfl (le_refl _)
  · refine evolves_cons_fresh (j := db.nextId)
      (c := ⟨Jwt.generateRefreshToken
        { userId := user.id, email := user.email, username := user.username } db.nextId now,
        user.id, p.exp * 1000, false⟩) ?_ rfl (le_refl _) ?_
    · rw [htoks₃, htoks₂]
      simp [Jwt.generateTokenPair]
    · show db.nextId < db₃.nextId
      simp at hn₂ hn₃
      omega

theorem updateProfile_evolves (uid : String) (d : UpdateUserData) (db : Db) :
    Evolves db (AuthService.updateProfile uid d db).2 := by
  unfold AuthService.updateProfile
  split
  · exact evolves_refl db
  split
  · exact evolves_refl db
  split
  · exact evolves_refl db
  next u' db₁ hupd =>
  obtain ⟨htoks, hn⟩ := UserRepository.updateById_ok hupd
  exact evolves_same_tokens htoks (le_of_eq hn.symm)

theorem applyOp_evolves (db : Db) (op : Op) : Evolves db (applyOp db op) := by
  cases op with
  | signup d now => exact signup_evolves d now db
  | login d now => exact login_evolves d now db
  | logout t => exact logout_evolves t db
  | refresh t now => exact refresh_evolves t now db
  | getProfile uid => exact evolves_refl db
  | updateProfile uid d => exact updateProfile_evolves uid d db
  | deactivate uid => exact evolves_same_tokens rfl (le_refl _)

theorem run_evolves (db : Db) (ops : List Op) : Evolves db (run db ops) := by
  induction ops generalizing db with
  | nil => exact evolves_refl db
  | cons op ops ih => exact evolves_trans (applyOp_evolves db op) (ih (applyOp db op))

/-! ### Consumed tokens stay consumed -/

theorem evolves_consumed {db db' : Db} {t : Jwt.Token}
    (he : Evolves db db') (hc : Consumed db t) (hb : TokenIdLt t db.nextId) :
    Consumed db' t ∧ TokenIdLt t db'.nextId := by
  obtain ⟨i, hi, hlt⟩ := hb
  refine ⟨?_, i, hi, lt_of_lt_of_le hlt he.1⟩
  intro r' hr' htok
  rcases he.2 r' hr' with ⟨r, hr, htk, hmono⟩ | ⟨j, hj, hjlo, hjhi⟩
  · exact hmono (hc r hr (by rw [← htk, htok]))
  · rw [htok, hi] at hj
    injection hj with hj
    omega

theorem evolves_tokenBound {db db' : Db} (he : Evolves db db') (hb : TokenBound db) :
    TokenBound db' := by
  intro r' hr'
  rcases he.2 r' hr' with ⟨r, hr, htk, -⟩ | ⟨j, hj, -, hjhi⟩
  · obtain ⟨i, hi, hlt⟩ := hb r hr
    exact ⟨i, htk ▸ hi, lt_of_lt_of_le hlt he.1⟩
  · exact ⟨j, hj, hjhi⟩

theorem tokenBound_empty : TokenBound Db.empty := by
  intro r hr
  cases hr

/-- Every state reachable by the service's operations from a state with
bounded token ids again has bounded token ids, so `TokenBound` is a sound
reachability hypothesis. -/
theorem tokenBound_run (db : Db) (ops : List Op) (hb : TokenBound db) :
    TokenBound (run db ops) := evolves_tokenBound (run_evolves db ops) hb

theorem Jwt.verifyRefreshToken_error {t : Jwt.Token} {now : Nat} {e : Err}
    (h : Jwt.verifyRefreshToken t now = .error e) :
    e = .unauthorized "Invalid refresh token" := by
  unfold Jwt.verifyRefreshToken at h
  split at h
  · cases h
  · injection h with h
    exact h.symm

/-- A consumed token can never again be exchanged: `refreshToken` fails on it
with exactly the generic rejection. -/
theorem consumed_refresh_fails {db : Db} {t : Jwt.Token} (hc : Consumed db t) (now : Nat) :
    (AuthService.refreshToken t now db).1 = .error (.unauthorized "Invalid refresh token") := by
  unfold AuthService.refreshToken
  split
  · next e he => simp [Jwt.verifyRefreshToken_error he]
  next payload hp =>
  split
  · rfl
  next stored hfind =>
  obtain ⟨hmem, htok⟩ := findByToken_eq_some hfind
  have hrev : stored.isRevoked = true := hc stored hmem htok
  split
  · rfl
  · next hfalse => exact absurd hrev hfalse

/-- Inversion of a successful rotation: every guard of the protocol held, the
new pair was minted from the re-fetched user with the fresh `tokenId`, the
presented token's record was revoked first (yielding the intermediate state
`db₂`), and the new token's record was persisted second. -/
theorem AuthService.refreshToken_ok {t : Jwt.Token} {now : Nat} {db db' : Db}
    {pair : Jwt.TokenPair}
    (h : AuthService.refreshToken t now db = (.ok pair, db')) :
    ∃ payload stored user db₂,
      Jwt.verifyRefreshToken t now = .ok payload ∧
      RefreshTokenRepository.findByToken t db = some stored ∧
      stored.isRevoked = false ∧ ¬ stored.expiresAt < now ∧
      UserRepository.findById payload.userId db = some user ∧ user.isActive = true ∧
      pair = Jwt.generateTokenPair
        { userId := user.id, email := user.email, username := user.username } db.nextId now ∧
      RefreshTokenRepository.revokeToken t { db with nextId := db.nextId + 1 } = .ok db₂ ∧
      AuthService.storeRefreshToken pair.refreshToken user.id now db₂ = .ok db' := by
  unfold AuthService.refreshToken at h
  split at h
  · injection h with h₁ h₂
    cases h₁
  next payload hp =>
  split at h
  · injection h with h₁ h₂
    cases h₁
  next stored hfind =>
  split at h
  · injection h with h₁ h₂
    cases h₁
  next hrev =>
  split at h
  · split at h <;>
    · injection h with h₁ h₂
      cases h₁
  next hexp =>
  split at h
  · injection h with h₁ h₂
    cases h₁
  next user huser =>
  split at h
  · injection h with h₁ h₂
    cases h₁
  next hact =>
  dsimp only at h
  split at h
  · injection h with h₁ h₂
    cases h₁
  next db₂ hrevoke =>
  split at h
  · injection h with h₁ h₂
    cases h₁
  next db₃ hstore =>
  injection h with h₁ h₂
  injection h₁ with h₁
  subst h₂
  refine ⟨payload, stored, user, db₂, hp, hfind, ?_, hexp, huser, ?_, h₁.symm, hrevoke, ?_⟩
  · simpa using hrev
  · simpa using hact
  · rw [h₁] at hstore
    exact hstore

/-- A successful rotation consumes the presented token, and its `tokenId`
stays below the freshness bound. -/
theorem refresh_ok_consumed {t : Jwt.Token} {now : Nat} {db db' : Db} {pair : Jwt.TokenPair}
    (hb : TokenBound db)
    (h : AuthService.refreshToken t now db = (.ok pair, db')) :
    Consumed db' t ∧ TokenIdLt t db'.nextId := by
  obtain ⟨payload, stored, user, db₂, hp, hfind, hrev, hexp, huser, hact, hpair, hrevoke, hstore⟩ :=
    AuthService.refreshToken_ok h
  obtain ⟨hmem, htok⟩ := findByToken_eq_some hfind
  obtain ⟨hu₂, hn₂, htoks₂⟩ := RefreshTokenRepository.revokeToken_ok hrevoke
  obtain ⟨p, hvp, hu₃, hn₃, htoks₃, hfresh⟩ := AuthService.storeRefreshToken_ok hstore
  obtain ⟨i, hi, hlt⟩ := hb stored hmem
  rw [htok] at hi
  constructor
  · intro r hr htk
    rw [htoks₃] at hr
    rcases List.mem_cons.mp hr with rfl | hr
    · exfalso
      have hmem₂ : { stored with isRevoked := true } ∈ db₂.refreshTokens := by
        rw [htoks₂]
        exact List.mem_map.mpr ⟨stored, hmem, by simp [htok]⟩
      exact hfresh _ hmem₂ (by simpa [htok] using htk.symm)
    · rw [htoks₂] at hr
      obtain ⟨r₀, hr₀, rfl⟩ := List.mem_map.mp hr
      by_cases hc : r₀.token = t
      · simp [hc]
      · simp [hc] at htk
  · refine ⟨i, hi, ?_⟩
    have : db'.nextId = db.nextId + 1 := by
      rw [hn₃, hn₂]
    omega

/-! ### Further bridging lemmas -/

theorem Jwt.verifyRefreshToken_ok {t : Jwt.Token} {now : Nat} {p : Jwt.TokenPayload}
    (h : Jwt.verifyRefreshToken t now = .ok p) :
    Jwt.verify t Config.jwtRefreshSecret now = some p := by
  unfold Jwt.verifyRefreshToken at h
  split at h
  · next q hq =>
    injection h with h
    rw [← h]
    exact hq
  · cases h

theorem Jwt.verify_ok_decode {t : Jwt.Token} {secret : String} {now : Nat} {p : Jwt.TokenPayload}
    (h : Jwt.verify t secret now = some p) : Jwt.decodeToken t = some p := by
  cases t with
  | malformed s => simp [Jwt.verify] at h
  | signed q sec iss aud =>
    simp only [Jwt.verify] at h
    split at h
    · exact h
    · cases h

theorem Jwt.verify_ok_exp {t : Jwt.Token} {secret : String} {now : Nat} {p : Jwt.TokenPayload}
    (h : Jwt.verify t secret now = some p) : now / 1000 < p.exp := by
  cases t with
  | malformed s => simp [Jwt.verify] at h
  | signed q sec iss aud =>
    simp only [Jwt.verify] at h
    split at h
    · next hcond =>
      injection h with h
      exact h ▸ hcond.2.2.2
    · cases h

theorem findByToken_isSome_of_mem {t : Jwt.Token} {db : Db} {r : RefreshTokenRecord}
    (hmem : r ∈ db.refreshTokens) (htok : r.token = t) :
    ∃ r', RefreshTokenRepository.findByToken t db = some r' := by
  have hs : (db.refreshTokens.find? fun x => decide (x.token = t)).isSome := by
    rw [List.find?_isSome]
    exact ⟨r, hmem, by simp [htok]⟩
  obtain ⟨r', hr'⟩ := Option.isSome_iff_exists.mp hs
  exact ⟨r', hr'⟩

theorem RefreshTokenRepository.revokeToken_error {t : Jwt.Token} {db : Db} {e : Err}
    (h : RefreshTokenRepository.revokeToken t db = .error e) :
    e = .db "P2025: record not found" := by
  unfold RefreshTokenRepository.revokeToken at h
  split at h
  · cases h
  · injection h with h
    exact h.symm

theorem AuthService.storeRefreshToken_error {tok : Jwt.Token} {uid : String} {now : Nat}
    {db : Db} {e : Err}
    (h : AuthService.storeRefreshToken tok uid now db = .error e) :
    e = .unauthorized "Invalid refresh token" ∨ e = .db "P2002: unique constraint violation" := by
  unfold AuthService.storeRefreshToken at h
  split at h
  · next e' he =>
    injection h with h
    exact .inl (h ▸ Jwt.verifyRefreshToken_error he)
  · next p hp =>
    unfold RefreshTokenRepository.create at h
    split at h
    · injection h with h
      exact .inr h.symm
    · cases h

/-- After revoking a token and persisting a (necessarily different) fresh
record, the revoked token is consumed both in the intermediate and in the
final state. -/
theorem consumed_after_revoke_store {t : Jwt.Token} {stored : RefreshTokenRecord}
    {base db₂ db' : Db} {tok : Jwt.Token} {uid : String} {now : Nat}
    (hmem : stored ∈ base.refreshTokens) (htok : stored.token = t)
    (htoks₂ : db₂.refreshTokens = base.refreshTokens.map
      (fun r => if decide (r.token = t) then { r with isRevoked := true } else r))
    (hstore : AuthService.storeRefreshToken tok uid now db₂ = .ok db') :
    Consumed db₂ t ∧ Consumed db' t := by
  obtain ⟨p, hvp, hu₃, hn₃, htoks₃, hfresh⟩ := AuthService.storeRefreshToken_ok hstore
  have hc₂ : Consumed db₂ t := by
    intro r hr htk
    rw [htoks₂] at hr
    obtain ⟨r₀, hr₀, rfl⟩ := List.mem_map.mp hr
    by_cases hc : r₀.token = t
    · simp [hc]
    · simp [hc] at htk
  refine ⟨hc₂, ?_⟩
  intro r hr htk
  rw [htoks₃] at hr
  rcases List.mem_cons.mp hr with rfl | hr
  · exfalso
    have hmem₂ : { stored with isRevoked := true } ∈ db₂.refreshTokens := by
      rw [htoks₂]
      exact List.mem_map.mpr ⟨stored, hmem, by simp [htok]⟩
    exact hfresh _ hmem₂ (by simpa [htok] using htk.symm)
  · exact hc₂ r hr htk

/-! ### The claims -/

/-- C1: Rotation single-use — once a refresh token `t` has been successfully
exchanged via `refreshToken`, every later `refreshToken t` call, after any
further sequence of operations at any times, fails with `Unauthorized`
("Invalid refresh token"); no sequence of operations lets the same token be
exchanged successfully twice.  `TokenBound db₀` is the uuid-freshness
reachability invariant, which holds in every state the service can reach
(`tokenBound_empty`, `tokenBound_run`). -/
theorem refresh_rotation_single_use (t : Jwt.Token) (now₀ now₁ : Nat) (db₀ db₁ : Db)
    (pair : Jwt.TokenPair) (ops : List Op)
    (hb : TokenBound db₀)
    (hok : AuthService.refreshToken t now₀ db₀ = (.ok pair, db₁)) :
    (AuthService.refreshToken t now₁ (run db₁ ops)).1
      = .error (.unauthorized "Invalid refresh token") := by
  obtain ⟨hc, hlt⟩ := refresh_ok_consumed hb hok
  obtain ⟨hc', -⟩ := evolves_consumed (run_evolves db₁ ops) hc hlt
  exact consumed_refresh_fails hc' now₁

/-- C1 witness: in `sampleDb` the exchange of `sampleToken` succeeds, and
after it (and an unrelated logout) the re-presented token is rejected. -/
theorem refresh_rotation_single_use_witness :
    TokenBound sampleDb ∧
    (AuthService.refreshToken sampleToken 5000
        (run (AuthService.refreshToken sampleToken 1000 sampleDb).2
          [Op.logout (Jwt.Token.malformed "x")])).1
      = .error (.unauthorized "Invalid refresh token") := by
  have hb : TokenBound sampleDb := by
    intro r hr
    simp [sampleDb] at hr
    subst hr
    exact ⟨0, rfl, Nat.zero_lt_one⟩
  have h1 : (AuthService.refreshToken sampleToken 1000 sampleDb).1
      = .ok (Jwt.generateTokenPair ⟨"u0", "a@x.com", none, none, 0, 0⟩ 1 1000) := by
    rfl
  have hok : AuthService.refreshToken sampleToken 1000 sampleDb
      = (.ok (Jwt.generateTokenPair ⟨"u0", "a@x.com", none, none, 0, 0⟩ 1 1000),
        (AuthService.refreshToken sampleToken 1000 sampleDb).2) := by
    conv_lhs => rw [← Prod.mk.eta (p := AuthService.refreshToken sampleToken 1000 sampleDb)]
    rw [h1]
  exact ⟨hb, refresh_rotation_single_use sampleToken 1000 5000 sampleDb _ _
    [Op.logout (Jwt.Token.malformed "x")] hb hok⟩

/-- C2: `refreshToken` verifies the presented token first — on any
verification failure it fails with `Unauthorized("Invalid refresh token")`
with the state untouched and the outcome the same for every store content
(no store lookup influences it); when verification succeeds but the stored
record is absent or revoked, it fails with the identical error. -/
theorem refresh_verify_then_store_check (t : Jwt.Token) (now : Nat) :
    (∀ e, Jwt.verifyRefreshToken t now = .error e →
      ∀ db : Db, AuthService.refreshToken t now db
        = (.error (.unauthorized "Invalid refresh token"), db)) ∧
    (∀ p, Jwt.verifyRefreshToken t now = .ok p →
      ∀ db : Db,
        (RefreshTokenRepository.findByToken t db = none ∨
          ∃ r, RefreshTokenRepository.findByToken t db = some r ∧ r.isRevoked = true) →
        AuthService.refreshToken t now db
          = (.error (.unauthorized "Invalid refresh token"), db)) := by
  constructor
  · intro e he db
    have := Jwt.verifyRefreshToken_error he
    subst this
    unfold AuthService.refreshToken
    rw [he]
  · intro p hp db hcase
    unfold AuthService.refreshToken
    rw [hp]
    rcases hcase with hnone | ⟨r, hsome, hrev⟩
    · rw [hnone]
    · rw [hsome]
      simp [hrev]

/-- C2 witness: a malformed token is rejected without consulting the store
(same result on `sampleDb`), and a verifiable token unknown to the store is
rejected with the identical error. -/
theorem refresh_verify_then_store_check_witness :
    AuthService.refreshToken (Jwt.Token.malformed "junk") 0 sampleDb
      = (.error (.unauthorized "Invalid refresh token"), sampleDb) ∧
    AuthService.refreshToken sampleToken 1000 Db.empty
      = (.error (.unauthorized "Invalid refresh token"), Db.empty) := by
  constructor
  · exact (refresh_verify_then_store_check (Jwt.Token.malformed "junk") 0).1
      (.unauthorized "Invalid refresh token") rfl sampleDb
  · exact (refresh_verify_then_store_check sampleToken 1000).2 samplePayload rfl Db.empty
      (Or.inl rfl)

/-- C10: `logout` succeeds for every input token and every state, and changes
nothing except removing the presented token's record when present; calling
it twice in sequence succeeds both times. -/
theorem logout_total_idempotent (t : Jwt.Token) (db : Db) :
    (AuthService.logout t db).1 = .ok () ∧
    (AuthService.logout t db).2.users = db.users ∧
    (AuthService.logout t db).2.nextId = db.nextId ∧
    (AuthService.logout t db).2.refreshTokens
      = db.refreshTokens.filter (fun r => !(decide (r.token = t))) ∧
    (AuthService.logout t (AuthService.logout t db).2).1 = .ok () := by
  have key : ∀ d : Db, (AuthService.logout t d).1 = .ok () ∧
      (AuthService.logout t d).2.users = d.users ∧
      (AuthService.logout t d).2.nextId = d.nextId ∧
      (AuthService.logout t d).2.refreshTokens
        = d.refreshTokens.filter (fun r => !(decide (r.token = t))) := by
    intro d
    unfold AuthService.logout
    split
    · next d₁ hdel =>
      obtain ⟨hu, hn, htoks⟩ := RefreshTokenRepository.deleteToken_ok hdel
      exact ⟨rfl, hu, hn, htoks⟩
    · next e hdel =>
      refine ⟨rfl, rfl, rfl, ?_⟩
      unfold RefreshTokenRepository.deleteToken at hdel
      split at hdel
      · cases hdel
      · next habs =>
        symm
        rw [List.filter_eq_self]
        intro r hr
        simp only [Bool.not_eq_true', decide_eq_false_iff_not]
        intro htk
        exact habs (anyToken_iff.mpr ⟨r, hr, htk⟩)
  obtain ⟨h1, h2, h3, h4⟩ := key db
  exact ⟨h1, h2, h3, h4, (key _).1⟩

/-- C3 counterexample: a refresh token whose embedded expiry (5 s) is in the
past at `now = 10000` ms is rejected with the generic
`Unauthorized("Invalid refresh token")` — not the claimed distinct
"Refresh token has expired" message — and its stored record is NOT deleted:
the state is unchanged and a subsequent lookup still finds the record. -/
theorem refresh_expired_embedded_counterexample :
    AuthService.refreshToken expiredToken 10000 expiredDb
      = (.error (.unauthorized "Invalid refresh token"), expiredDb) ∧
    RefreshTokenRepository.findByToken expiredToken expiredDb
      = some ⟨expiredToken, "u0", 5000, false⟩ ∧
    (AuthService.refreshToken expiredToken 10000 expiredDb).1
      ≠ .error (.unauthorized "Refresh token has expired") := by
  refine ⟨rfl, rfl, ?_⟩
  intro h
  rw [show (AuthService.refreshToken expiredToken 10000 expiredDb).1
      = .error (.unauthorized "Invalid refresh token") from rfl] at h
  injection h with h
  injection h with h
  exact absurd h (by decide)

/-- C3 amended: a refresh token whose embedded expiry is in the past fails
`refreshToken` with `Unauthorized("Invalid refresh token")` — it is rejected
at the cryptographic-verification step, before the store is consulted — and
the state is unchanged, so its stored record (if any) is not deleted. -/
theorem refresh_expired_embedded_amended (t : Jwt.Token) (p : Jwt.TokenPayload) (now : Nat)
    (db : Db) (hdec : Jwt.decodeToken t = some p) (hpast : p.exp ≤ now / 1000) :
    AuthService.refreshToken t now db
      = (.error (.unauthorized "Invalid refresh token"), db) := by
  cases t with
  | malformed s => cases hdec
  | signed q sec iss aud =>
    injection hdec with hdec
    subst hdec
    have hno : Jwt.verify (.signed q sec iss aud) Config.jwtRefreshSecret now = none := by
      simp only [Jwt.verify]
      rw [if_neg]
      rintro ⟨-, -, -, hlt⟩
      omega
    unfold AuthService.refreshToken Jwt.verifyRefreshToken
    rw [hno]

/-- C3 amended witness: the expired sample token at `now = 10000`. -/
theorem refresh_expired_embedded_amended_witness :
    Jwt.decodeToken expiredToken = some expiredPayload ∧
    expiredPayload.exp ≤ 10000 / 1000 ∧
    AuthService.refreshToken expiredToken 10000 expiredDb
      = (.error (.unauthorized "Invalid refresh token"), expiredDb) :=
  ⟨rfl, by decide,
    refresh_expired_embedded_amended expiredToken expiredPayload 10000 expiredDb rfl (by decide)⟩

/-- C4: deactivation takes effect on refresh — with a cryptographically valid
presented token and a live (present, unrevoked, unexpired) stored record,
`refreshToken` fails with `Unauthorized("User not found or inactive")`
whenever the user is absent or deactivated, leaving the state unchanged. -/
theorem refresh_rejects_inactive_user (t : Jwt.Token) (p : Jwt.TokenPayload)
    (r : RefreshTokenRecord) (now : Nat) (db : Db)
    (hver : Jwt.verifyRefreshToken t now = .ok p)
    (hfind : RefreshTokenRepository.findByToken t db = some r)
    (hrev : r.isRevoked = false)
    (hexp : ¬ r.expiresAt < now)
    (huser : UserRepository.findById p.userId db = none ∨
      ∃ u, UserRepository.findById p.userId db = some u ∧ u.isActive = false) :
    AuthService.refreshToken t now db
      = (.error (.unauthorized "User not found or inactive"), db) := by
  unfold AuthService.refreshToken
  rw [hver, hfind]
  rcases huser with hnone | ⟨u, hsome, hinact⟩
  · simp [hrev, hexp, hnone]
  · simp [hrev, hexp, hsome, hinact]

/-- C4 witness: the sample token is still valid and its record live, but the
user has been deactivated. -/
theorem refresh_rejects_inactive_user_witness :
    AuthService.refreshToken sampleToken 1000 inactiveDb
      = (.error (.unauthorized "User not found or inactive"), inactiveDb) :=
  refresh_rejects_inactive_user sampleToken samplePayload
    ⟨sampleToken, "u0", 604800000, false⟩ 1000 inactiveDb rfl rfl rfl (by decide)
    (Or.inr ⟨⟨"u0", "a@x.com", none, none, none, Bcrypt.hash "pw" 12, false⟩, rfl, rfl⟩)

/-- C5 counterexample: deleting an absent token IS an error — Prisma's
`delete` on a missing unique record throws P2025, which
`RefreshTokenRepository.deleteToken` propagates, contradicting "deleting an
absent token is not an error ... for every input token string". -/
theorem delete_absent_token_errors :
    RefreshTokenRepository.deleteToken (Jwt.Token.malformed "unknown") Db.empty
      = .error (.db "P2025: record not found") := rfl

/-- C5 amended: `revokeToken` on a present token never errors and is
idempotent (revoking an already-revoked record succeeds and is a no-op);
`revokeToken`/`deleteToken` on an absent token fail with the store's P2025
error, and deletion idempotence is provided one level up by `logout`, which
swallows the error and always reports success. -/
theorem revoke_idempotent_delete_total_via_logout (t : Jwt.Token) (db : Db) :
    (∀ r, RefreshTokenRepository.findByToken t db = some r →
      ∃ db₁, RefreshTokenRepository.revokeToken t db = .ok db₁ ∧
        ((∀ r₀ ∈ db.refreshTokens, r₀.token = t → r₀.isRevoked = true) → db₁ = db)) ∧
    (RefreshTokenRepository.findByToken t db = none →
      RefreshTokenRepository.deleteToken t db = .error (.db "P2025: record not found")) ∧
    (AuthService.logout t db).1 = .ok () := by
  refine ⟨?_, ?_, ?_⟩
  · intro r hfind
    obtain ⟨hmem, htok⟩ := findByToken_eq_some hfind
    have hany : (db.refreshTokens.any fun x => decide (x.token = t)) = true :=
      anyToken_iff.mpr ⟨r, hmem, htok⟩
    refine ⟨_, by rw [RefreshTokenRepository.revokeToken, if_pos hany], ?_⟩
    intro hall
    have hmap : ∀ l : List RefreshTokenRecord,
        (∀ r₀ ∈ l, r₀.token = t → r₀.isRevoked = true) →
        l.map (fun x => if decide (x.token = t) then { x with isRevoked := true } else x) = l := by
      intro l
      induction l with
      | nil => intro _; rfl
      | cons x xs ih =>
        intro hall'
        simp only [List.map_cons]
        rw [ih fun r₀ hr₀ => hall' r₀ (List.mem_cons_of_mem _ hr₀)]
        congr 1
        by_cases hc : x.token = t
        · have hx := hall' x (List.mem_cons_self _ _) hc
          rw [if_pos (by simp [hc])]
          cases x
          simp_all
        · simp [hc]
    rw [hmap _ hall]
  · intro hnone
    have hall := findByToken_eq_none hnone
    have hany : (db.refreshTokens.any fun x => decide (x.token = t)) = false := by
      rw [Bool.eq_false_iff]
      intro hx
      obtain ⟨x, hx₁, hx₂⟩ := anyToken_iff.mp hx
      exact hall x hx₁ hx₂
    rw [RefreshTokenRepository.deleteToken, if_neg (by rw [hany]; exact Bool.false_ne_true)]
  · unfold AuthService.logout
    split <;> rfl

/-- C5 witness: revoking the already-revoked sample record succeeds and
leaves the state unchanged; deleting from the empty store errors (P2025);
logout nonetheless succeeds. -/
theorem revoke_idempotent_delete_total_via_logout_witness :
    (∃ db₁, RefreshTokenRepository.revokeToken sampleToken revokedDb = .ok db₁
      ∧ db₁ = revokedDb) ∧
    RefreshTokenRepository.deleteToken sampleToken Db.empty
      = .error (.db "P2025: record not found") ∧
    (AuthService.logout sampleToken revokedDb).1 = .ok () := by
  refine ⟨?_,
    (revoke_idempotent_delete_total_via_logout sampleToken Db.empty).2.1 rfl,
    (revoke_idempotent_delete_total_via_logout sampleToken revokedDb).2.2⟩
  obtain ⟨db₁, hok, hid⟩ :=
    (revoke_idempotent_delete_total_via_logout sampleToken revokedDb).1
      ⟨sampleToken, "u0", 604800000, true⟩ rfl
  refine ⟨db₁, hok, hid ?_⟩
  intro r₀ hr₀ htk
  simp [revokedDb] at hr₀
  subst hr₀
  rfl

/-- C6: a nonexistent email and an existing active account with a wrong
password fail `login` with the identical `Unauthorized("Invalid email or
password")` error and an unchanged state, so the two failure causes are
indistinguishable to the caller from the returned error. -/
theorem login_failure_indistinguishable (e pw : String) (now : Nat) (db : Db) :
    (UserRepository.findByEmail e db = none →
      AuthService.login ⟨e, pw⟩ now db
        = (.error (.unauthorized "Invalid email or password"), db)) ∧
    (∀ u, UserRepository.findByEmail e db = some u → u.isActive = true →
      Bcrypt.compare pw u.password = false →
      AuthService.login ⟨e, pw⟩ now db
        = (.error (.unauthorized "Invalid email or password"), db)) := by
  constructor
  · intro hnone
    unfold AuthService.login
    rw [hnone]
  · intro u hsome hact hcmp
    unfold AuthService.login
    rw [hsome]
    simp [hact, hcmp]

/-- C6 witness: in `sampleDb`, a login with an unknown email and a login
against `u0` with the wrong password produce the identical error. -/
theorem login_failure_indistinguishable_witness :
    AuthService.login ⟨"zz@x.com", "whatever"⟩ 0 sampleDb
      = (.error (.unauthorized "Invalid email or password"), sampleDb) ∧
    AuthService.login ⟨"a@x.com", "wrong"⟩ 0 sampleDb
      = (.error (.unauthorized "Invalid email or password"), sampleDb) :=
  ⟨(login_failure_indistinguishable "zz@x.com" "whatever" 0 sampleDb).1 rfl,
    (login_failure_indistinguishable "a@x.com" "wrong" 0 sampleDb).2 sampleUser rfl rfl rfl⟩

/-- C7: in every successful `refreshToken` call, the presented token's record
is revoked strictly before the new refresh token's record is persisted — the
success path factors through an intermediate state `db₂` in which the old
token is already consumed, on top of which the new record is then created —
and on success both effects hold in the final state: the old token is
consumed (never valid again) while the new refresh token's record is present
and unrevoked. -/
theorem refresh_revoke_old_then_persist_new (t : Jwt.Token) (now : Nat) (db db' : Db)
    (pair : Jwt.TokenPair)
    (hok : AuthService.refreshToken t now db = (.ok pair, db')) :
    ∃ uid db₂,
      RefreshTokenRepository.revokeToken t { db with nextId := db.nextId + 1 } = .ok db₂ ∧
      Consumed db₂ t ∧
      AuthService.storeRefreshToken pair.refreshToken uid now db₂ = .ok db' ∧
      Consumed db' t ∧
      ∃ r, RefreshTokenRepository.findByToken pair.refreshToken db' = some r ∧
        r.isRevoked = false := by
  obtain ⟨payload, stored, user, db₂, hp, hfind, hrev, hexp, huser, hact, hpair, hrevoke, hstore⟩ :=
    AuthService.refreshToken_ok hok
  obtain ⟨hmem, htok⟩ := findByToken_eq_some hfind
  obtain ⟨hu₂, hn₂, htoks₂⟩ := RefreshTokenRepository.revokeToken_ok hrevoke
  obtain ⟨hc₂, hc'⟩ := consumed_after_revoke_store hmem htok htoks₂ hstore
  obtain ⟨p, hvp, hu₃, hn₃, htoks₃, hfresh⟩ := AuthService.storeRefreshToken_ok hstore
  refine ⟨user.id, db₂, hrevoke, hc₂, hstore, hc', ?_⟩
  refine ⟨⟨pair.refreshToken, user.id, p.exp * 1000, false⟩, ?_, rfl⟩
  unfold RefreshTokenRepository.findByToken
  rw [htoks₃]
  exact List.find?_cons_of_pos _ (by simp)

/-- C7 witness: the concrete successful exchange of `sampleToken` in
`sampleDb`. -/
theorem refresh_revoke_old_then_persist_new_witness :
    ∃ uid db₂,
      RefreshTokenRepository.revokeToken sampleToken
        { sampleDb with nextId := sampleDb.nextId + 1 } = .ok db₂ ∧
      Consumed db₂ sampleToken ∧
      AuthService.storeRefreshToken
        (Jwt.generateTokenPair ⟨"u0", "a@x.com", none, none, 0, 0⟩ 1 1000).refreshToken
        uid 1000 db₂ = .ok (AuthService.refreshToken sampleToken 1000 sampleDb).2 ∧
      Consumed (AuthService.refreshToken sampleToken 1000 sampleDb).2 sampleToken ∧
      ∃ r, RefreshTokenRepository.findByToken
          (Jwt.generateTokenPair ⟨"u0", "a@x.com", none, none, 0, 0⟩ 1 1000).refreshToken
          (AuthService.refreshToken sampleToken 1000 sampleDb).2 = some r ∧
        r.isRevoked = false := by
  have h1 : (AuthService.refreshToken sampleToken 1000 sampleDb).1
      = .ok (Jwt.generateTokenPair ⟨"u0", "a@x.com", none, none, 0, 0⟩ 1 1000) := rfl
  have hok : AuthService.refreshToken sampleToken 1000 sampleDb
      = (.ok (Jwt.generateTokenPair ⟨"u0", "a@x.com", none, none, 0, 0⟩ 1 1000),
        (AuthService.refreshToken sampleToken 1000 sampleDb).2) := by
    conv_lhs => rw [← Prod.mk.eta (p := AuthService.refreshToken sampleToken 1000 sampleDb)]
    rw [h1]
  exact refresh_revoke_old_then_persist_new sampleToken 1000 sampleDb _ _ hok

/-- C8 counterexample: on a decodable token signed with the wrong secret, the
spec-worded decode-based variant stores a record, while the source's
`storeRefreshToken` rejects it with the verification error — the expiry is
extracted via cryptographic verification (`verifyRefreshToken`), not via the
non-verifying decode, contradicting the claim. -/
theorem store_refresh_token_decode_counterexample :
    Jwt.decodeToken wrongSecretToken = some samplePayload ∧
    AuthService.storeRefreshTokenSpecVariant wrongSecretToken "u0" Db.empty
      = .ok ⟨[], [⟨wrongSecretToken, "u0", 604800000, false⟩], 0⟩ ∧
    AuthService.storeRefreshToken wrongSecretToken "u0" 0 Db.empty
      = .error (.unauthorized "Invalid refresh token") := ⟨rfl, rfl, rfl⟩

/-- C8 amended: `storeRefreshToken` (used by signup and login to persist the
freshly minted refresh token) extracts the embedded expiry via the
cryptographically verifying `verifyRefreshToken` — not via the non-verifying
decode — and stores `{token, userId, expiresAt}` with `expiresAt` equal to
the embedded expiry claim (`exp` seconds × 1000); the verified payload
coincides with the decoded one. -/
theorem store_refresh_token_via_verify (tok : Jwt.Token) (uid : String) (now : Nat)
    (db db' : Db) (h : AuthService.storeRefreshToken tok uid now db = .ok db') :
    ∃ p, Jwt.verifyRefreshToken tok now = .ok p ∧ Jwt.decodeToken tok = some p ∧
      db'.refreshTokens = ⟨tok, uid, p.exp * 1000, false⟩ :: db.refreshTokens := by
  obtain ⟨p, hp, -, -, htoks, -⟩ := AuthService.storeRefreshToken_ok h
  exact ⟨p, hp, Jwt.verify_ok_decode (Jwt.verifyRefreshToken_ok hp), htoks⟩

/-- C8 amended witness: persisting `sampleToken` at time 0 into the empty
store. -/
theorem store_refresh_token_via_verify_witness :
    ∃ p, Jwt.verifyRefreshToken sampleToken 0 = .ok p ∧
      Jwt.decodeToken sampleToken = some p ∧
      (⟨[], [⟨sampleToken, "u0", 604800000, false⟩], 0⟩ : Db).refreshTokens
        = ⟨sampleToken, "u0", p.exp * 1000, false⟩ :: Db.empty.refreshTokens :=
  store_refresh_token_via_verify sampleToken "u0" 0 Db.empty
    ⟨[], [⟨sampleToken, "u0", 604800000, false⟩], 0⟩ rfl

theorem error_unauthorized_ne {m₁ m₂ : String} (h : ¬ m₁ = m₂) :
    (Except.error (Err.unauthorized m₁) : Except Err Jwt.TokenPair)
      ≠ .error (.unauthorized m₂) := by
  intro he
  injection he with he
  injection he with he
  exact h he

theorem error_db_ne {m₁ m₂ : String} :
    (Except.error (Err.db m₁) : Except Err Jwt.TokenPair) ≠ .error (.unauthorized m₂) := by
  intro he
  injection he with he
  exact Err.noConfusion he

/-- C9: for every state whose record for `t` (if any) stores exactly the
token's embedded expiry (`expiresAt = exp × 1000` — how `storeRefreshToken`
shapes every record it creates), the stored-expiry branch of `refreshToken`
is unreachable: the call never yields the "Refresh token has expired" error
and never performs the associated deletion (a record present before the call
is still present after it), because verification already rejects any token
whose embedded expiry has passed. -/
theorem stored_expiry_branch_unreachable (t : Jwt.Token) (now : Nat) (db : Db)
    (hconsist : ∀ r p, RefreshTokenRepository.findByToken t db = some r →
      Jwt.decodeToken t = some p → r.expiresAt = p.exp * 1000) :
    (AuthService.refreshToken t now db).1
      ≠ .error (.unauthorized "Refresh token has expired") ∧
    ((∃ r, RefreshTokenRepository.findByToken t db = some r) →
      ∃ r', RefreshTokenRepository.findByToken t (AuthService.refreshToken t now db).2
        = some r') := by
  unfold AuthService.refreshToken
  split
  · next e he =>
    refine ⟨?_, fun hex => hex⟩
    show Except.error e ≠ _
    rw [Jwt.verifyRefreshToken_error he]
    exact error_unauthorized_ne (by decide)
  next payload hp =>
  split
  · next hfind =>
    refine ⟨error_unauthorized_ne (by decide), fun hex => ?_⟩
    obtain ⟨r, hr⟩ := hex
    rw [hfind] at hr
    cases hr
  next stored hfind =>
  split
  · exact ⟨error_unauthorized_ne (by decide), fun hex => ⟨stored, hfind⟩⟩
  next hrev =>
  split
  · next hlt =>
    exfalso
    have hv := Jwt.verifyRefreshToken_ok hp
    have hdec := Jwt.verify_ok_decode hv
    have hsec := Jwt.verify_ok_exp hv
    have hcon := hconsist stored payload hfind hdec
    have hbound : now < payload.exp * 1000 :=
      (Nat.div_lt_iff_lt_mul (by norm_num)).mp hsec
    omega
  next hlt =>
  split
  · exact ⟨error_unauthorized_ne (by decide), fun hex => ⟨stored, hfind⟩⟩
  next user huser =>
  split
  · exact ⟨error_unauthorized_ne (by decide), fun hex => ⟨stored, hfind⟩⟩
  next hact =>
  dsimp only
  obtain ⟨hmem, htok⟩ := findByToken_eq_some hfind
  split
  · next e₁ hrev₁ =>
    refine ⟨?_, fun hex => ⟨stored, hfind⟩⟩
    show Except.error e₁ ≠ _
    rw [RefreshTokenRepository.revokeToken_error hrev₁]
    exact error_db_ne
  next db₂ hrevoke =>
  obtain ⟨hu₂, hn₂, htoks₂⟩ := RefreshTokenRepository.revokeToken_ok hrevoke
  have hmem₂ : { stored with isRevoked := true } ∈ db₂.refreshTokens := by
    rw [htoks₂]
    exact List.mem_map.mpr ⟨stored, hmem, by simp [htok]⟩
  split
  · next e₂ hstore =>
    refine ⟨?_, fun hex => ?_⟩
    · show Except.error e₂ ≠ _
      rcases AuthService.storeRefreshToken_error hstore with rfl | rfl
      · exact error_unauthorized_ne (by decide)
      · exact error_db_ne
    · exact findByToken_isSome_of_mem hmem₂ htok
  next db₃ hstore =>
  obtain ⟨p, hvp, hu₃, hn₃, htoks₃, hfresh⟩ := AuthService.storeRefreshToken_ok hstore
  refine ⟨fun h => Except.noConfusion h, fun hex => ?_⟩
  have hmem₃ : { stored with isRevoked := true } ∈ db₃.refreshTokens := by
    rw [htoks₃]
    exact List.mem_cons_of_mem _ hmem₂
  exact findByToken_isSome_of_mem hmem₃ htok

/-- C9 witness: the live sample record stores exactly the embedded expiry,
and the refresh call at `now = 1000` neither reports "Refresh token has
expired" nor loses the record. -/
theorem stored_expiry_branch_unreachable_witness :
    (∀ r p, RefreshTokenRepository.findByToken sampleToken sampleDb = some r →
      Jwt.decodeToken sampleToken = some p → r.expiresAt = p.exp * 1000) ∧
    (AuthService.refreshToken sampleToken 1000 sampleDb).1
      ≠ .error (.unauthorized "Refresh token has expired") ∧
    ((∃ r, RefreshTokenRepository.findByToken sampleToken sampleDb = some r) →
      ∃ r', RefreshTokenRepository.findByToken sampleToken
        (AuthService.refreshToken sampleToken 1000 sampleDb).2 = some r') := by
  have hcon : ∀ r p, RefreshTokenRepository.findByToken sampleToken sampleDb = some r →
      Jwt.decodeToken sampleToken = some p → r.expiresAt = p.exp * 1000 := by
    intro r p hr hp
    rw [show RefreshTokenRepository.findByToken sampleToken sampleDb
      = some ⟨sampleToken, "u0", 604800000, false⟩ from rfl] at hr
    rw [show Jwt.decodeToken sampleToken = some samplePayload from rfl] at hp
    injection hr with hr
    injection hp with hp
    subst hr
    subst hp
    rfl
  obtain ⟨h1, h2⟩ := stored_expiry_branch_unreachable sampleToken 1000 sampleDb hcon
  exact ⟨hcon, h1, h2⟩

end AuthSpec
